import Mathlib

/-!
Shallow embedding of the vertopal-js client core, with theorems checking the
natural-language specification against the code.

Strings manipulated character-by-character (format canonicalization, stream
bytes) are modelled as lists of Unicode code points / byte values (`List Nat`),
so that the JavaScript primitives (`trim`, `toLowerCase`, `slice`, `subarray`)
become explicit arithmetic functions.  Envelope-shaped JSON data is modelled by
an inductive `Json` type.
-/

set_option maxHeartbeats 1000000

namespace Vertopal

/-! ## Code points and JavaScript string primitives (utils/misc.ts) -/

/-- Code points of a Lean string literal, used to write concrete inputs. -/
def codes (s : String) : List Nat := s.toList.map Char.toNat

/-- Code points removed by JavaScript `String.prototype.trim` (WhiteSpace and
LineTerminator productions). -/
def jsWhitespace : List Nat :=
  [9, 10, 11, 12, 13, 32, 160, 5760,
   8192, 8193, 8194, 8195, 8196, 8197, 8198, 8199, 8200, 8201, 8202,
   8232, 8233, 8239, 8287, 12288, 65279]

/-- Whether a code point is JavaScript whitespace. -/
def isWs (n : Nat) : Bool := n ∈ jsWhitespace

/-- Drop leading JavaScript whitespace. -/
def trimLeft (l : List Nat) : List Nat := l.dropWhile isWs

/-- Drop trailing JavaScript whitespace. -/
def trimRight (l : List Nat) : List Nat := (l.reverse.dropWhile isWs).reverse

/-- JavaScript `String.prototype.trim`. -/
def jsTrim (l : List Nat) : List Nat := trimRight (trimLeft l)

/-- Lower-casing of one code point: JavaScript `toLowerCase` restricted to the
ASCII range, which covers format-name strings. -/
def lowerCode (n : Nat) : Nat := if 65 ≤ n ∧ n ≤ 90 then n + 32 else n

/-- JavaScript `String.prototype.toLowerCase` on code points. -/
def jsToLowerCase (l : List Nat) : List Nat := l.map lowerCode

/-- Embedding of `canonicalizeFormat` (src/unnamed/part_004, utils/misc.ts
lines 176-183): `undefined` and the empty string are falsy and return
`undefined`; otherwise the string is trimmed, lower-cased, one leading dot is
removed by `slice(1)`, and an empty result returns `undefined` via
`formatName || undefined`. -/
def canonicalizeFormat : Option (List Nat) → Option (List Nat)
  | none => none
  | some s =>
    if s = [] then none
    else
      let t := jsToLowerCase (jsTrim s)
      let t' := if t.head? = some 46 then t.drop 1 else t
      if t' = [] then none else some t'

/-! ## Conversion.wait poll loop (src/unnamed/part_002, converter.ts lines 102-120) -/

/-- Runtime value read from the `pollIntervals` array: either a JavaScript
number (modelled as an integer number of seconds) or any value failing the
`typeof interval === 'number'` check (`undefined` for a missing index, strings,
`null`, objects, ...). -/
inductive JsVal where
  | num (n : Int)
  | nonNum
deriving DecidableEq, Repr

/-- JavaScript array indexing `pollIntervals[step]`: out-of-range access
yields `undefined`, which is a non-number. -/
def jsIndex (p : List JsVal) (i : Nat) : JsVal := (p.get? i).getD JsVal.nonNum

/-- Embedding of the loop body of `Conversion.wait`.  The second argument is
the current `step` index; the third is the number of polls for which `done()`
reports `false` before it reports `true` (the loop stops as soon as `done()`
is `true`).  The result is the list of sleep durations in milliseconds passed
to `sleepFn`, or, on a non-number interval, the thrown error message together
with the sleeps performed before the throw.  The `step` update mirrors
`if (step < pollIntervals.length - 1) step++` (with JavaScript `length - 1`
agreeing with truncated subtraction for the comparison used). -/
def waitLoop (p : List JsVal) : Nat → Nat → Except (String × List Int) (List Int)
  | _, 0 => .ok []
  | step, k + 1 =>
    match jsIndex p step with
    | .num n =>
      match waitLoop p (if step < p.length - 1 then step + 1 else step) k with
      | .ok rest => .ok (n * 1000 :: rest)
      | .error (e, rest) => .error (e, n * 1000 :: rest)
    | .nonNum =>
      .error ("pollIntervals[" ++ toString step ++ "] is not a valid number", [])

/-- Numeric value of a `JsVal`, with a default for non-numbers. -/
def jsNumVal : JsVal → Int
  | .num n => n
  | .nonNum => 0

/-- Expected sleep duration of the i-th poll: the interval at the index
clamped to the last element, times 1000 milliseconds. -/
def sleepAt (p : List JsVal) (i : Nat) : Int :=
  jsNumVal (jsIndex p (min i (p.length - 1))) * 1000

/-! ## JSON model and ErrorWrapper (src/unnamed/part_004, utils/dataWrappers.ts) -/

/-- Decoded JSON value, the shape inspected by `ErrorWrapper`. -/
inductive Json where
  | null
  | bool (b : Bool)
  | num (n : Int)
  | str (s : String)
  | arr (elems : List Json)
  | obj (fields : List (String × Json))

/-- JavaScript property access `data[key]` on a decoded JSON value: key lookup
on an object (envelope objects carry each key at most once, so first match is
the value), `undefined` (here `none`) on anything else, including arrays,
whose named properties are not JSON data. -/
def Json.get? : Json → String → Option Json
  | .obj fields, k => fields.lookup k
  | _, _ => none

/-- The `typeof data === 'object' && data !== null` test of `getByPath`:
true for objects and arrays, false for `null` (excluded explicitly) and for
every primitive. -/
def isObjectNotNull : Json → Bool
  | .obj _ => true
  | .arr _ => true
  | _ => false

/-- Embedding of `ErrorWrapper.getByPath` (part_004 lines 38-48): walk the
keys; a primitive or `null` intermediate, or a missing key (`undefined`),
yields JavaScript `null`. -/
def getByPath : Json → List String → Json
  | data, [] => data
  | data, key :: rest =>
    if isObjectNotNull data then
      match data.get? key with
      | none => Json.null
      | some v => getByPath v rest
    else Json.null

/-- JavaScript truthiness of a decoded JSON value (`0` and the empty string
are falsy; every object and array is truthy). -/
def truthy : Json → Bool
  | .null => false
  | .bool b => b
  | .num n => n ≠ 0
  | .str s => s ≠ ""
  | .arr _ => true
  | .obj _ => true

/-- Truthiness of an optional-chaining access result, where `none` models
JavaScript `undefined`. -/
def truthyOpt : Option Json → Bool
  | none => false
  | some v => truthy v

/-- The test applied to each candidate path value in `hasError` and
`getError`: `typeof err === 'object' && (err?.code || err?.message)`.
JavaScript `typeof null` is `'object'`, so `null` passes the first conjunct
but optional chaining then yields `undefined`, which is falsy. -/
def errMatch (e : Json) : Bool :=
  (match e with
   | .obj _ => true
   | .arr _ => true
   | .null => true
   | _ => false)
  && (truthyOpt (e.get? "code") || truthyOpt (e.get? "message"))

/-- The `errorPaths` table of `ErrorWrapper` (part_004 lines 53-58): the
envelope root itself comes first. -/
def errorPaths : List (List String) :=
  [[], ["error"], ["result", "error"], ["result", "output", "result", "error"]]

/-- Embedding of `ErrorWrapper.hasError` (part_004 lines 75-80). -/
def hasError (r : Json) : Bool :=
  errorPaths.any fun p => errMatch (getByPath r p)

/-- Loop of `ErrorWrapper.getError` over the candidate paths. -/
def getErrorAux (r : Json) : List (List String) → Json
  | [] => .obj []
  | p :: rest =>
    let err := getByPath r p
    if errMatch err then err else getErrorAux r rest

/-- Embedding of `ErrorWrapper.getError` (part_004 lines 88-96): the value at
the first matching path, or an empty object. -/
def getError (r : Json) : Json := getErrorAux r errorPaths

/-- Embedding of `ErrorWrapper.getErrorCode` (part_004 lines 112-114):
`this.getError().code ?? 'UNKNOWN_ERROR'`, where `??` substitutes only for
`undefined` (missing key) and `null`. -/
def getErrorCode (r : Json) : Json :=
  match (getError r).get? "code" with
  | none => .str "UNKNOWN_ERROR"
  | some .null => .str "UNKNOWN_ERROR"
  | some v => v

/-- Embedding of `ErrorWrapper.getErrorMessage` (part_004 lines 103-105). -/
def getErrorMessage (r : Json) : Json :=
  match (getError r).get? "message" with
  | none => .str "No error message available."
  | some .null => .str "No error message available."
  | some v => v

/-! ## ExceptionHandler and the error-code table (src/src/utils/exceptionHandler.ts) -/

/-- The keys of `ERROR_CODE_MAP` (exceptionHandler.ts lines 18-63).  Every
mapped class extends `APIError` (src/unnamed/part_000). -/
def errorCodeMapKeys : List String :=
  ["INTERNAL_SERVER_ERROR", "NOT_FOUND", "POST_METHOD_ALLOWED",
   "MISSING_AUTHORIZATION_HEADER", "INVALID_AUTHORIZATION_HEADER",
   "INVALID_FIELD", "MISSING_REQUIRED_FIELD", "WRONG_TYPE_FIELD",
   "INVALID_DATA_KEY", "MISSING_REQUIRED_DATA_KEY", "WRONG_TYPE_DATA_KEY",
   "WRONG_VALUE_DATA_KEY", "INVALID_CREDENTIAL", "FREE_PLAN_DISALLOWED",
   "INSUFFICIENT_VCREDITS", "INVALID_CALLBACK", "UNVERIFIED_DOMAIN_CALLBACK",
   "NO_CONNECTOR_DEPENDENT_TASK", "NOT_READY_DEPENDENT_TASK",
   "MISMATCH_VERSION_DEPENDENT_TASK", "MISMATCH_DEPENDENT_TASK",
   "FILE_NOT_EXISTS", "DOWNLOAD_EXPIRED", "ONLY_DEVELOPMENT_REQUEST",
   "INVALID_PARAMETER", "MISSING_REQUIRED_PARAMETER", "WRONG_TYPE_PARAMETER",
   "WRONG_VALUE_PARAMETER", "ONLY_DEVELOPMENT_FILE", "NOT_VALID_EXTENSION",
   "LIMIT_UPLOAD_SIZE", "EMPTY_FILE", "WRONG_OUTPUT_FORMAT_STRUCTURE",
   "INVALID_OUTPUT_FORMAT", "WRONG_INPUT_FORMAT_STRUCTURE",
   "INVALID_INPUT_FORMAT", "NO_CONVERTER_INPUT_TO_OUTPUT",
   "NOT_MATCH_EXTENSION_AND_INPUT", "TOO_MANY_REQUESTS", "FREE_APP_LIMITED",
   "DISABLED_FOR_FREE_APP", "WRONG_FORMAT_STRUCTURE", "INVALID_FORMAT",
   "FAILED_CONVERT"]

/-- Whether `ERROR_CODE_MAP[code]` is defined: the map keys are strings, so a
non-string code (converted by JavaScript indexing to a string such as "404")
never matches. -/
def isKnownCode : Json → Bool
  | .str s => s ∈ errorCodeMapKeys
  | _ => false

/-- Outcome of `ExceptionHandler.raiseForResponse` (exceptionHandler.ts lines
84-98): no throw, a throw of a class from `ERROR_CODE_MAP` (every one a
subclass of `APIError`), or a throw of the fallback `vex.APIException`
(which is an ancestor, not a subclass, of `APIError`). -/
inductive RaiseOutcome where
  | ok
  | apiError (code msg : Json)
  | apiException (code msg : Json)

/-- Embedding of `ExceptionHandler.raiseForResponse`.  Warnings only reach
`console.warn` and are not modelled. -/
def raiseForResponse (r : Json) : RaiseOutcome :=
  if hasError r then
    let code := getErrorCode r
    let msg := getErrorMessage r
    if isKnownCode code then .apiError code msg else .apiException code msg
  else .ok

/-! ## Interface.sendRequest retry loop (src/unnamed/part_001, lines 70-109) -/

/-- What one physical attempt (`this.request` plus response decoding) does, as
seen by the `try` block of `sendRequest`: a JSON-typed response with its parsed
body, a non-JSON response returned raw, a `SyntaxError` from `response.json()`,
or a failure of `request` itself (network error, abort on timeout). -/
inductive AttemptResult where
  | jsonBody (body : Json)
  | rawResponse
  | jsonSyntaxError (msg : String)
  | requestFailure (msg : String)

/-- Terminal outcome of `sendRequest`. -/
inductive SendOutcome where
  | jsonOk (body : Json)
  | raw
  | apiError (code msg : Json)
  | invalidJsonResponse (msg : String)
  | networkConnectionError (msg : String)

/-- JavaScript template-literal rendering of the code and message values used
for `error.message`, for the string-typed values that occur in responses. -/
def jsDisplay : Json → String
  | .null => "null"
  | .bool b => if b then "true" else "false"
  | .num n => toString n
  | .str s => s
  | .arr _ => ""
  | .obj _ => "[object Object]"

/-- The `error.message` of the exception built by `raiseForResponse`:
the template literal `[${code}] ${message}`. -/
def exceptionMessage (code msg : Json) : String :=
  "[" ++ jsDisplay code ++ "] " ++ jsDisplay msg

/-- Embedding of the retry loop of `Interface.sendRequest`, against an
abstract transport giving each attempt's physical result.  The first argument
after `retries` counts the loop iterations still allowed, `retries + 1 -
attempt`, so the base case 0 is the fall-through after the `for` loop
(`throw new NetworkConnectionError('Request failed without exception.')`).
Returns the outcome together with the backoff sleeps performed, in
milliseconds (`2 ** attempt * 1000`).  The `catch` clause re-throws
`instanceof APIError` immediately, converts `SyntaxError` to
`InvalidJSONResponseError`, and otherwise retries while `attempt < retries`,
so a thrown fallback `APIException` (unknown error code) takes the retry
branch. -/
def sendRequestGo (transport : Nat → AttemptResult) (retries : Nat) :
    Nat → Nat → SendOutcome × List Nat
  | 0, _ => (.networkConnectionError "Request failed without exception.", [])
  | remaining + 1, attempt =>
    match transport attempt with
    | .rawResponse => (.raw, [])
    | .jsonBody body =>
      match raiseForResponse body with
      | .ok => (.jsonOk body, [])
      | .apiError c m => (.apiError c m, [])
      | .apiException c m =>
        if attempt < retries then
          let r := sendRequestGo transport retries remaining (attempt + 1)
          (r.1, 2 ^ attempt * 1000 :: r.2)
        else
          (.networkConnectionError
            ("All " ++ toString retries ++ " retries failed! Error: " ++
              exceptionMessage c m), [])
    | .jsonSyntaxError m => (.invalidJsonResponse m, [])
    | .requestFailure m =>
      if attempt < retries then
        let r := sendRequestGo transport retries remaining (attempt + 1)
        (r.1, 2 ^ attempt * 1000 :: r.2)
      else
        (.networkConnectionError
          ("All " ++ toString retries ++ " retries failed! Error: " ++ m), [])

/-- Embedding of `Interface.sendRequest`: the loop runs attempts 1 up to
`retries`. -/
def sendRequest (transport : Nat → AttemptResult) (retries : Nat) :
    SendOutcome × List Nat :=
  sendRequestGo transport retries retries 1

/-! ## Timeout selection in Interface.request (src/unnamed/part_001, lines 138-141) -/

/-- The endpoints given the long timeout:
`['/upload/file', '/download/url/get']`. -/
def uploadDownloadPaths : List String := ["/upload/file", "/download/url/get"]

/-- Embedding of the timeout selection in `Interface.request`:

  `const timeoutMs = timeout ?? [...].includes(endpoint) ? long : default`

JavaScript gives `??` higher precedence than the conditional operator, so this
is `(timeout ?? includes(endpoint)) ? longTimeout : defaultTimeout`: when a
`timeout` argument is supplied, the condition is the number itself (truthy
unless 0), and the supplied value never becomes `timeoutMs`. -/
def selectTimeout (timeout : Option Int) (endpoint : String)
    (longTimeout defaultTimeout : Int) : Int :=
  let cond : Bool :=
    match timeout with
    | some t => t ≠ 0
    | none => endpoint ∈ uploadDownloadPaths
  if cond then longTimeout else defaultTimeout

/-- Modelled from the spec and from the doc comment of `Interface.request`
("timeout in milliseconds before the request is aborted"): the explicit
timeout, if given, is the deadline; otherwise the long timeout for the
upload/download endpoints and the default timeout for the rest. -/
def selectTimeoutSpec (timeout : Option Int) (endpoint : String)
    (longTimeout defaultTimeout : Int) : Int :=
  match timeout with
  | some t => t
  | none => if endpoint ∈ uploadDownloadPaths then longTimeout else defaultTimeout

/-! ## StreamChunker (src/src/utils/streamChunker.ts) -/

/-- Index resolution of JavaScript `TypedArray.prototype.slice` and
`Buffer.prototype.subarray`: a negative index counts from the end,
clamped at 0. -/
def jsSliceIndex (c : Int) (len : Nat) : Nat :=
  if 0 ≤ c then c.toNat else ((len : Int) + c).toNat

/-- `buffer.slice(0, chunkSize)` / `buffer.subarray(0, chunkSize)` on a byte
list. -/
def jsTake (c : Int) (l : List Nat) : List Nat := l.take (jsSliceIndex c l.length)

/-- `buffer.slice(chunkSize)` / `buffer.subarray(chunkSize)` on a byte
list. -/
def jsDropChunk (c : Int) (l : List Nat) : List Nat := l.drop (jsSliceIndex c l.length)

/-- Fuelled embedding of the inner slicing loop shared by
`processNodeStream` (lines 86-90) and `processBrowserStream` (lines 128-132):

  `while (buffer.length >= this.chunkSize) { emit(slice); buffer = rest }`

Returns the emitted chunks and the remaining buffer when the condition
becomes false, and `none` when the fuel runs out with the condition still
true (the marker for a loop that has not exited within `fuel` iterations). -/
def sliceLoop (c : Int) : Nat → List Nat → Option (List (List Nat) × List Nat)
  | 0, buffer =>
    if c ≤ (buffer.length : Int) then none else some ([], buffer)
  | fuel + 1, buffer =>
    if c ≤ (buffer.length : Int) then
      match sliceLoop c fuel (jsDropChunk c buffer) with
      | none => none
      | some (chunks, rest) => some (jsTake c buffer :: chunks, rest)
    else some ([], buffer)

/-- Embedding of the source-consumption loop of `StreamChunker`: each element
of `incoming` is one chunk delivered by the source stream (already coerced to
bytes: `Buffer.from` for Node strings, `TextEncoder.encode` in the browser),
appended to the carried buffer and sliced by the inner loop; after exhaustion
a non-empty remainder is emitted as a final short chunk (lines 93-95 and
135-138).  The fuel `buffer.length + 1` is enough for every positive chunk
size; `none` propagates an inner loop that did not exit. -/
def processStream (c : Int) : List (List Nat) → List Nat → Option (List (List Nat))
  | [], buffer => some (if buffer.length > 0 then [buffer] else [])
  | chunk :: rest, buffer =>
    let buf := buffer ++ chunk
    match sliceLoop c (buf.length + 1) buf with
    | none => none
    | some (chunks, buffer') =>
      match processStream c rest buffer' with
      | none => none
      | some out => some (chunks ++ out)

/-- Embedding of `StreamChunker.process` for a finite source: both the Node
and the browser paths run the same buffering algorithm, differing only in the
concrete buffer type. -/
def StreamChunker.process (c : Int) (incoming : List (List Nat)) :
    Option (List (List Nat)) :=
  processStream c incoming []

/-! ## Concrete envelopes and auxiliary predicates used by the theorems -/

/-- Whether a canonicalization result is `undefined` or begins with neither a
dot nor a whitespace code point; this is the side condition under which
canonicalization is a fixpoint. -/
def headClean : Option (List Nat) → Bool
  | none => true
  | some t =>
    match t.head? with
    | none => true
    | some c => !(c == 46 || isWs c)

/-- Envelope whose root itself bears a truthy `code`, in addition to error
objects at both the `error` and the `result.error` paths. -/
def envBothPaths : Json :=
  .obj [("code", .str "ROOT"),
        ("error", .obj [("code", .str "A")]),
        ("result", .obj [("error", .obj [("code", .str "B")])])]

/-- Envelope with error objects at the `error` and `result.error` paths and
nothing at the root. -/
def envTwoPaths : Json :=
  .obj [("error", .obj [("code", .str "A")]),
        ("result", .obj [("error", .obj [("code", .str "B")])])]

/-- Envelope reporting an error code absent from `ERROR_CODE_MAP`. -/
def envUnknownCode : Json :=
  .obj [("error", .obj [("code", .str "TOTALLY_NEW_CODE"), ("message", .str "m")])]

/-- Envelope reporting the known error code `NOT_FOUND`. -/
def envKnownCode : Json :=
  .obj [("error", .obj [("code", .str "NOT_FOUND"), ("message", .str "m")])]

/-- Envelope with a single plain error object. -/
def envSimpleErr : Json :=
  .obj [("error", .obj [("code", .str "X")])]

/-! ## Lemmas about the string primitives -/

theorem lowerCode_idem (n : Nat) : lowerCode (lowerCode n) = lowerCode n := by
  simp only [lowerCode]
  split
  · split <;> omega
  · rfl

theorem isWs_false_of_alpha (n : Nat) (h1 : 65 ≤ n) (h2 : n ≤ 122) :
    isWs n = false := by
  simp only [isWs, jsWhitespace, decide_eq_false_iff_not, List.mem_cons,
    List.not_mem_nil, or_false]
  omega

theorem isWs_lowerCode (n : Nat) : isWs (lowerCode n) = isWs n := by
  simp only [lowerCode]
  split
  · rename_i h
    rw [isWs_false_of_alpha (n + 32) (by omega) (by omega),
      isWs_false_of_alpha n (by omega) (by omega)]
  · rfl

theorem jsToLowerCase_idem (l : List Nat) :
    jsToLowerCase (jsToLowerCase l) = jsToLowerCase l := by
  simp only [jsToLowerCase, List.map_map]
  congr 1
  funext n
  exact lowerCode_idem n

theorem trimLeft_eq_self (l : List Nat)
    (h : ∀ c, l.head? = some c → isWs c = false) : trimLeft l = l := by
  cases l with
  | nil => rfl
  | cons a t => simp [trimLeft, List.dropWhile_cons, h a rfl]

theorem getLast?_trimRight_not_ws (l : List Nat) (c : Nat)
    (hc : (trimRight l).getLast? = some c) : isWs c = false := by
  rw [← List.head?_reverse] at hc
  simp only [trimRight, List.reverse_reverse] at hc
  have h := List.head?_dropWhile_not isWs l.reverse
  rw [hc] at h
  exact h

theorem trimRight_eq_self (l : List Nat)
    (h : ∀ c, l.getLast? = some c → isWs c = false) : trimRight l = l := by
  simp only [trimRight]
  have hd : l.reverse.dropWhile isWs = l.reverse := by
    cases hr : l.reverse with
    | nil => rfl
    | cons a t =>
      have ha : l.getLast? = some a := by
        rw [← List.head?_reverse, hr]
        rfl
      simp [List.dropWhile_cons, h a ha]
  rw [hd, List.reverse_reverse]

theorem getLast?_drop_one (l : List Nat) (h : l.drop 1 ≠ []) :
    (l.drop 1).getLast? = l.getLast? := by
  match l with
  | [] => simp at h
  | [a] => simp at h
  | a :: b :: t => simp

theorem jsTrim_lower_getLast_not_ws (s : List Nat) (c : Nat)
    (hc : (jsToLowerCase (jsTrim s)).getLast? = some c) : isWs c = false := by
  simp only [jsToLowerCase, List.getLast?_map, Option.map_eq_some'] at hc
  obtain ⟨c0, hc0, hlc⟩ := hc
  rw [← hlc, isWs_lowerCode]
  exact getLast?_trimRight_not_ws (trimLeft s) c0 hc0

theorem canonicalizeFormat_some_shape (x : Option (List Nat)) (t : List Nat)
    (h : canonicalizeFormat x = some t) :
    t ≠ [] ∧ jsToLowerCase t = t ∧ ∀ c, t.getLast? = some c → isWs c = false := by
  match x with
  | none => exact absurd h (by simp [canonicalizeFormat])
  | some s =>
    simp only [canonicalizeFormat] at h
    by_cases hs : s = []
    · simp [hs] at h
    · rw [if_neg hs] at h
      by_cases hdot : (jsToLowerCase (jsTrim s)).head? = some 46
      · rw [if_pos hdot] at h
        by_cases hnil : (jsToLowerCase (jsTrim s)).drop 1 = []
        · rw [if_pos hnil] at h
          exact absurd h (by simp)
        · rw [if_neg hnil] at h
          obtain rfl : (jsToLowerCase (jsTrim s)).drop 1 = t := Option.some.inj h
          refine ⟨hnil, ?_, ?_⟩
          · rw [show jsToLowerCase ((jsToLowerCase (jsTrim s)).drop 1) =
              (jsToLowerCase (jsToLowerCase (jsTrim s))).drop 1 from
                List.map_drop lowerCode _ 1, jsToLowerCase_idem]
          · intro c hc
            rw [getLast?_drop_one _ hnil] at hc
            exact jsTrim_lower_getLast_not_ws s c hc
      · rw [if_neg hdot] at h
        by_cases hnil : jsToLowerCase (jsTrim s) = []
        · rw [if_pos hnil] at h
          exact absurd h (by simp)
        · rw [if_neg hnil] at h
          obtain rfl : jsToLowerCase (jsTrim s) = t := Option.some.inj h
          exact ⟨hnil, jsToLowerCase_idem _, fun c hc =>
            jsTrim_lower_getLast_not_ws s c hc⟩

/-! ## C4: format canonicalization -/

/-- C4 counterexample: canonicalization is not idempotent for every string.
`canonicalizeFormat` strips only one leading dot, so on `"..pdf"` it returns
`".pdf"`, while a second application returns `"pdf"`. -/
theorem canonicalizeFormat_not_idempotent :
    canonicalizeFormat (canonicalizeFormat (some (codes "..pdf"))) ≠
      canonicalizeFormat (some (codes "..pdf")) := by decide

/-- C4 (amended): canonicalization is idempotent for every input whose
canonical form is `undefined` or begins with neither a dot nor a whitespace
character (a leading dot survives only when the input had two or more leading
dots, leading whitespace only when a dot was followed by whitespace); the
concrete equalities `canonicalize(".PDF") = "pdf"`,
`canonicalize("  HTML ") = "html"` and
`canonicalize(undefined) = undefined` hold as claimed. -/
theorem canonicalizeFormat_idempotence :
    (∀ x, headClean (canonicalizeFormat x) = true →
      canonicalizeFormat (canonicalizeFormat x) = canonicalizeFormat x)
    ∧ canonicalizeFormat (some (codes ".PDF")) = some (codes "pdf")
    ∧ canonicalizeFormat (some (codes "  HTML ")) = some (codes "html")
    ∧ canonicalizeFormat none = none := by
  refine ⟨?_, by decide, by decide, rfl⟩
  intro x hx
  cases hcx : canonicalizeFormat x with
  | none => rfl
  | some t =>
    rw [hcx] at hx
    obtain ⟨hne, hlower, hlast⟩ := canonicalizeFormat_some_shape x t hcx
    have hhead : ∀ c, t.head? = some c → c ≠ 46 ∧ isWs c = false := by
      intro c hc
      simp only [headClean, hc, Bool.not_eq_true'] at hx
      simp only [Bool.or_eq_false_iff, beq_eq_false_iff_ne] at hx
      exact hx
    have htriml : trimLeft t = t :=
      trimLeft_eq_self t fun c hc => (hhead c hc).2
    have htrimr : trimRight t = t := trimRight_eq_self t hlast
    have htrim : jsTrim t = t := by rw [jsTrim, htriml, htrimr]
    have hd : t.head? ≠ some 46 := by
      intro hc
      exact absurd rfl (hhead 46 hc).1
    simp only [canonicalizeFormat]
    rw [if_neg hne, htrim, hlower, if_neg hd, if_neg hne]

/-- Witness for the amended C4 idempotence at the concrete format ".PDF". -/
theorem canonicalizeFormat_idempotence_witness :
    canonicalizeFormat (canonicalizeFormat (some (codes ".PDF"))) =
      canonicalizeFormat (some (codes ".PDF")) :=
  canonicalizeFormat_idempotence.1 (some (codes ".PDF")) (by decide)

/-! ## C1: timeout selection -/

/-- C1 (code bug): an explicit timeout argument is never used as the request
deadline.  Because `??` binds tighter than the conditional operator, a
supplied non-zero timeout (here 5000 ms, endpoint `/convert/file`, long
timeout 300000 ms, default 30000 ms) selects the long timeout instead of the
supplied value, contradicting the documented behaviour captured by
`selectTimeoutSpec`; with no explicit timeout the code and the documented
selection agree. -/
theorem selectTimeout_explicit_ignored :
    selectTimeout (some 5000) "/convert/file" 300000 30000 = 300000
    ∧ selectTimeoutSpec (some 5000) "/convert/file" 300000 30000 = 5000
    ∧ selectTimeout (some 5000) "/upload/file" 300000 30000 = 300000
    ∧ selectTimeout (some 0) "/convert/file" 300000 30000 = 30000
    ∧ ∀ (endpoint : String) (longT defT : Int),
        selectTimeout none endpoint longT defT =
          selectTimeoutSpec none endpoint longT defT := by
  refine ⟨rfl, rfl, rfl, rfl, ?_⟩
  intro e l d
  by_cases h : e ∈ uploadDownloadPaths <;>
    simp [selectTimeout, selectTimeoutSpec, h]

/-! ## C6 and C7: the wait poll loop -/

theorem waitLoop_ok_of_numeric (p : List JsVal)
    (hnum : ∀ i, i < p.length → jsIndex p i ≠ JsVal.nonNum) :
    ∀ (k step : Nat), step < p.length →
      waitLoop p step k =
        .ok (List.ofFn fun i : Fin k =>
          jsNumVal (jsIndex p (min (step + ↑i) (p.length - 1))) * 1000) := by
  intro k
  induction k with
  | zero => intro step _; simp [waitLoop]
  | succ k ih =>
    intro step hstep
    cases hv : jsIndex p step with
    | nonNum => exact absurd hv (hnum step hstep)
    | num n =>
      have hstep1 : step ≤ p.length - 1 := by omega
      have hnext : (if step < p.length - 1 then step + 1 else step) < p.length := by
        split <;> omega
      have hrec := ih (if step < p.length - 1 then step + 1 else step) hnext
      simp only [waitLoop, hv, hrec]
      rw [List.ofFn_succ]
      refine congrArg Except.ok (congrArg₂ List.cons ?_ ?_)
      · simp [Nat.min_eq_left hstep1, hv, jsNumVal]
      · refine congrArg List.ofFn (funext fun i => ?_)
        have harg :
            min ((if step < p.length - 1 then step + 1 else step) + ↑i)
              (p.length - 1) = min (step + ↑(i.succ)) (p.length - 1) := by
          rw [Fin.val_succ]
          by_cases hlt : step < p.length - 1
          · rw [if_pos hlt]
            omega
          · rw [if_neg hlt]
            omega
        rw [harg]

/-- C6: once the interval sequence is exhausted the wait loop keeps polling at
the final interval.  For every non-empty, all-numeric interval list and every
number `k` of polls for which `done()` is still false, the loop performs
exactly `k` sleeps and succeeds, the i-th sleep using the interval at index
`min i (length - 1)` — the index advances once per poll and clamps at the last
element; the loop neither terminates nor throws merely because the sequence
ran out. -/
theorem wait_clamps_and_continues (p : List JsVal) (hne : p ≠ [])
    (hnum : ∀ i, i < p.length → jsIndex p i ≠ JsVal.nonNum) (k : Nat) :
    waitLoop p 0 k = .ok (List.ofFn fun i : Fin k => sleepAt p ↑i) := by
  have h0 : 0 < p.length := List.length_pos.mpr hne
  have h := waitLoop_ok_of_numeric p hnum k 0 h0
  simpa [sleepAt] using h

/-- Witness for C6: the default 10s,10s,15s pattern over five polls sleeps
10s, 10s, 15s, 15s, 15s. -/
theorem wait_clamps_and_continues_witness :
    waitLoop [JsVal.num 10, JsVal.num 10, JsVal.num 15] 0 5 =
      .ok (List.ofFn fun i : Fin 5 =>
        sleepAt [JsVal.num 10, JsVal.num 10, JsVal.num 15] ↑i) :=
  wait_clamps_and_continues _ (by decide) (by decide) 5

/-- C7 counterexample: a zero interval is not a valid positive number, yet
the loop does not raise — it sleeps 0 ms and succeeds, because the code only
checks `typeof interval === 'number'`. -/
theorem wait_accepts_zero_interval :
    waitLoop [JsVal.num 0] 0 1 = .ok [0] := rfl

/-- C7 (amended): the wait loop raises a terminal error before sleeping at a
step exactly when the element at the index currently required is missing or
not a number (zero and negative numeric intervals are accepted and passed to
the sleep function). -/
theorem wait_raises_on_non_number (p : List JsVal) (step k : Nat)
    (h : jsIndex p step = JsVal.nonNum) :
    waitLoop p step (k + 1) =
      .error ("pollIntervals[" ++ toString step ++ "] is not a valid number",
        []) := by
  simp only [waitLoop, h]

/-- Witness for the amended C7: with an empty interval list the first poll
reads `undefined` and the loop raises with no sleep performed. -/
theorem wait_raises_on_non_number_witness :
    waitLoop [] 0 1 =
      .error ("pollIntervals[" ++ toString 0 ++ "] is not a valid number",
        []) :=
  wait_raises_on_non_number [] 0 0 rfl

/-! ## Lemmas about ErrorWrapper -/

theorem errMatch_ne_empty_obj (e : Json) (h : errMatch e = true) :
    e ≠ Json.obj [] := by
  intro he
  rw [he] at h
  exact absurd h (by decide)

theorem getErrorAux_eq_empty_of_none (r : Json) (ps : List (List String))
    (h : ∀ p ∈ ps, errMatch (getByPath r p) = false) :
    getErrorAux r ps = Json.obj [] := by
  induction ps with
  | nil => rfl
  | cons p rest ih =>
    simp only [getErrorAux, h p (List.mem_cons_self p rest), if_false,
      Bool.false_eq_true]
    exact ih fun q hq => h q (List.mem_cons_of_mem p hq)

theorem errMatch_getErrorAux (r : Json) (ps : List (List String))
    (h : (ps.any fun p => errMatch (getByPath r p)) = true) :
    errMatch (getErrorAux r ps) = true := by
  induction ps with
  | nil => simp at h
  | cons p rest ih =>
    by_cases hp : errMatch (getByPath r p) = true
    · simp only [getErrorAux, hp, if_true]
    · simp only [List.any_cons, Bool.or_eq_true] at h
      have hrest := h.resolve_left hp
      simp only [getErrorAux, hp, Bool.false_eq_true, if_false]
      exact ih hrest

/-! ## C8: error path priority -/

/-- C8 counterexample: the priority order begins with the envelope root
itself, not with the `error` key.  In `envBothPaths` the `error` and
`result.error` paths both resolve to error objects bearing a code, yet
`getError` returns the whole envelope (whose own `code` is truthy), not the
root-level `error` object. -/
theorem getError_root_path_wins :
    errMatch (getByPath envBothPaths ["error"]) = true
    ∧ errMatch (getByPath envBothPaths ["result", "error"]) = true
    ∧ getError envBothPaths = envBothPaths
    ∧ getError envBothPaths ≠ getByPath envBothPaths ["error"] := by
  refine ⟨rfl, rfl, rfl, ?_⟩
  intro h
  have h2 := congrArg (fun j => Json.get? j "code") h
  simp [getError, getErrorAux, getByPath, Json.get?, errMatch, truthyOpt,
    truthy, isObjectNotNull, List.lookup, envBothPaths, errorPaths] at h2

/-- C8 (amended): for every envelope in which both the `error` and the
`result.error` paths resolve to objects bearing a truthy code or message,
and whose root object does not itself pass the error test (the root is the
first path in the priority order), `getError` returns the root-level `error`
object — the first matching path wins over all later paths. -/
theorem getError_error_before_result_error (env : Json)
    (hroot : errMatch env = false)
    (herr : errMatch (getByPath env ["error"]) = true)
    (_hres : errMatch (getByPath env ["result", "error"]) = true) :
    getError env = getByPath env ["error"] := by
  simp only [getError, errorPaths, getErrorAux]
  rw [show getByPath env [] = env from rfl]
  simp [hroot, herr]

/-- Witness for the amended C8 on a concrete two-path envelope. -/
theorem getError_error_before_result_error_witness :
    getError envTwoPaths = getByPath envTwoPaths ["error"] :=
  getError_error_before_result_error envTwoPaths rfl rfl rfl

/-! ## C10: hasError agrees with getError -/

/-- C10: `hasError` is true exactly when `getError` returns a non-empty
object; a detected error object always bears a truthy `code` or `message`
(optional chaining plus JavaScript truthiness), so an error object whose
`code` and `message` are both empty strings or absent is not classified as
an error.  Both operations are total functions of the envelope. -/
theorem hasError_iff_getError_nonempty :
    (∀ env, hasError env = true ↔ getError env ≠ Json.obj [])
    ∧ (∀ env, hasError env = true →
        (truthyOpt ((getError env).get? "code")
          || truthyOpt ((getError env).get? "message")) = true)
    ∧ hasError (Json.obj [("error",
        Json.obj [("code", Json.str ""), ("message", Json.str "")])]) = false := by
  refine ⟨fun env => ⟨fun h => ?_, fun h => ?_⟩, fun env h => ?_, rfl⟩
  · exact errMatch_ne_empty_obj _ (errMatch_getErrorAux env errorPaths h)
  · by_cases hh : hasError env = true
    · exact hh
    · exfalso
      apply h
      apply getErrorAux_eq_empty_of_none
      intro p hp
      have heq : hasError env = false := Bool.eq_false_iff.mpr hh
      rw [hasError, List.any_eq_false] at heq
      exact Bool.eq_false_iff.mpr (heq p hp)
  · have hm := errMatch_getErrorAux env errorPaths h
    simp only [errMatch, Bool.and_eq_true] at hm
    exact hm.2

/-- Witness for C10 on a concrete envelope carrying an error. -/
theorem hasError_iff_getError_nonempty_witness :
    (truthyOpt ((getError envSimpleErr).get? "code")
      || truthyOpt ((getError envSimpleErr).get? "message")) = true :=
  hasError_iff_getError_nonempty.2.1 envSimpleErr rfl

/-! ## C2: service-error retry policy -/

/-- C2 counterexample: a service-reported error whose code is not in
`ERROR_CODE_MAP` is not raised immediately.  With retries = 2 and every
attempt returning the same unknown-code error envelope, `sendRequest`
performs one backoff wait of 2000 ms (so the request IS retried) and finally
surfaces a `NetworkConnectionError` wrapping the message, not the mapped
typed error. -/
theorem sendRequest_retries_unknown_code :
    sendRequest (fun _ => .jsonBody envUnknownCode) 2 =
      (.networkConnectionError
        "All 2 retries failed! Error: [TOTALLY_NEW_CODE] m", [2000]) := rfl

/-- C2 (amended): for a service-reported error whose code is in the known
error-code table, `sendRequest` raises the mapped typed error (a subclass of
`APIError`) immediately, with no retry attempt and no backoff wait; an error
with an unrecognized code instead raises the fallback `APIException`, which
fails the `instanceof APIError` re-throw filter and is retried with backoff
like a transport failure while attempts remain. -/
theorem sendRequest_service_error_policy :
    (∀ (transport : Nat → AttemptResult) (retries remaining attempt : Nat)
      (body : Json) (c m : Json),
      transport attempt = .jsonBody body →
      raiseForResponse body = .apiError c m →
      sendRequestGo transport retries (remaining + 1) attempt =
        (.apiError c m, []))
    ∧ (∀ (transport : Nat → AttemptResult) (retries remaining attempt : Nat)
      (body : Json) (c m : Json),
      transport attempt = .jsonBody body →
      raiseForResponse body = .apiException c m →
      attempt < retries →
      sendRequestGo transport retries (remaining + 1) attempt =
        ((sendRequestGo transport retries remaining (attempt + 1)).1,
          2 ^ attempt * 1000 ::
            (sendRequestGo transport retries remaining (attempt + 1)).2)) := by
  constructor
  · intro transport retries remaining attempt body c m ht hr
    simp [sendRequestGo, ht, hr]
  · intro transport retries remaining attempt body c m ht hr hlt
    simp [sendRequestGo, ht, hr, hlt]

/-- Witness for the amended C2: a known `NOT_FOUND` error is raised at once
with no backoff sleeps, at attempt 1 of 3. -/
theorem sendRequest_service_error_policy_witness :
    sendRequestGo (fun _ => .jsonBody envKnownCode) 3 3 1 =
      (.apiError (.str "NOT_FOUND") (.str "m"), []) :=
  sendRequest_service_error_policy.1 (fun _ => .jsonBody envKnownCode)
    3 2 1 envKnownCode (.str "NOT_FOUND") (.str "m") rfl rfl

/-! ## C5: retry count and backoff schedule -/

/-- C5: with retries = 3 and a transport failing on attempts 1 and 2 and
succeeding with a clean JSON body on attempt 3, `sendRequest` returns the
parsed body after exactly two backoff waits of 2000 ms and 4000 ms
(2^attempt seconds, attempt starting at 1); with retries = 1 and permanent
transport failure it raises a `NetworkConnectionError` embedding the last
cause after zero backoff waits. -/
theorem sendRequest_retry_backoff :
    (∀ body : Json, raiseForResponse body = .ok →
      sendRequest
        (fun a => if a ≤ 2 then .requestFailure "boom" else .jsonBody body) 3 =
        (.jsonOk body, [2000, 4000]))
    ∧ sendRequest (fun _ => .requestFailure "boom") 1 =
        (.networkConnectionError "All 1 retries failed! Error: boom", []) := by
  constructor
  · intro body hb
    simp [sendRequest, sendRequestGo, hb]
  · rfl

/-- Witness for C5 with the empty JSON object as the successful body. -/
theorem sendRequest_retry_backoff_witness :
    sendRequest
      (fun a => if a ≤ 2 then .requestFailure "boom"
        else .jsonBody (Json.obj [])) 3 =
      (.jsonOk (Json.obj []), [2000, 4000]) :=
  sendRequest_retry_backoff.1 (Json.obj []) rfl

/-! ## Lemmas about StreamChunker -/

theorem jsSliceIndex_nonneg (c : Int) (hc : 0 ≤ c) (len : Nat) :
    jsSliceIndex c len = c.toNat := by
  simp [jsSliceIndex, hc]

theorem jsTake_nonneg (c : Int) (hc : 0 ≤ c) (l : List Nat) :
    jsTake c l = l.take c.toNat := by
  simp [jsTake, jsSliceIndex_nonneg c hc]

theorem jsDropChunk_nonneg (c : Int) (hc : 0 ≤ c) (l : List Nat) :
    jsDropChunk c l = l.drop c.toNat := by
  simp [jsDropChunk, jsSliceIndex_nonneg c hc]

theorem sliceLoop_spec (c : Int) (hc : 1 ≤ c) :
    ∀ (fuel : Nat) (buffer : List Nat), buffer.length ≤ fuel →
      ∃ chunks rest, sliceLoop c fuel buffer = some (chunks, rest)
        ∧ chunks.flatten ++ rest = buffer
        ∧ (∀ ch ∈ chunks, ch.length = c.toNat)
        ∧ chunks.length = buffer.length / c.toNat
        ∧ rest.length = buffer.length % c.toNat := by
  have hc0 : (0 : Int) ≤ c := by omega
  have hc1 : 1 ≤ c.toNat := by omega
  intro fuel
  induction fuel with
  | zero =>
    intro buffer hlen
    have hb : buffer = [] := List.eq_nil_of_length_eq_zero (by omega)
    subst hb
    refine ⟨[], [], ?_, rfl, by simp, by simp, by simp⟩
    simp only [sliceLoop]
    rw [if_neg (show ¬ c ≤ ((([] : List Nat).length : Nat) : Int) by
      simp
      omega)]
  | succ fuel ih =>
    intro buffer hlen
    by_cases hcond : c ≤ (buffer.length : Int)
    · have hcn : c.toNat ≤ buffer.length := by omega
      have hdrop : (jsDropChunk c buffer).length ≤ fuel := by
        rw [jsDropChunk_nonneg c hc0, List.length_drop]
        omega
      obtain ⟨chunks, rest, heq, hflat, hlens, hcount, hmod⟩ :=
        ih (jsDropChunk c buffer) hdrop
      refine ⟨jsTake c buffer :: chunks, rest, ?_, ?_, ?_, ?_, ?_⟩
      · simp only [sliceLoop, if_pos hcond, heq]
      · simp only [List.flatten_cons, List.append_assoc, hflat,
          jsTake_nonneg c hc0, jsDropChunk_nonneg c hc0, List.take_append_drop]
      · intro ch hch
        rcases List.mem_cons.mp hch with h1 | h2
        · subst h1
          rw [jsTake_nonneg c hc0, List.length_take]
          omega
        · exact hlens ch h2
      · rw [List.length_cons, hcount, jsDropChunk_nonneg c hc0,
          List.length_drop, Nat.div_eq_sub_div (by omega) hcn]
      · rw [hmod, jsDropChunk_nonneg c hc0, List.length_drop,
          ← Nat.mod_eq_sub_mod hcn]
    · have hlt : buffer.length < c.toNat := by omega
      refine ⟨[], buffer, by simp [sliceLoop, hcond], by simp, by simp, ?_, ?_⟩
      · simp [Nat.div_eq_of_lt hlt]
      · simp [Nat.mod_eq_of_lt hlt]

theorem processStream_spec (c : Int) (hc : 1 ≤ c) :
    ∀ (incoming : List (List Nat)) (buffer : List Nat),
      buffer.length < c.toNat →
      ∃ chunks, processStream c incoming buffer = some chunks
        ∧ chunks.flatten = buffer ++ incoming.flatten
        ∧ chunks.length =
            (buffer.length + incoming.flatten.length + c.toNat - 1) / c.toNat
        ∧ ∀ ch ∈ chunks.dropLast, ch.length = c.toNat := by
  have hc1 : 1 ≤ c.toNat := by omega
  intro incoming
  induction incoming with
  | nil =>
    intro buffer hbuf
    by_cases hb : buffer.length > 0
    · refine ⟨[buffer], by simp [processStream, hb], by simp, ?_, by simp⟩
      simp only [List.flatten_nil, List.length_nil, Nat.add_zero,
        List.length_cons]
      have h1 : (buffer.length + c.toNat - 1) / c.toNat = 1 :=
        Nat.div_eq_of_lt_le (by omega) (by omega)
      omega
    · have hb0 : buffer = [] := List.eq_nil_of_length_eq_zero (by omega)
      subst hb0
      refine ⟨[], by simp [processStream], by simp, ?_, by simp⟩
      simp [Nat.div_eq_of_lt (show c.toNat - 1 < c.toNat by omega)]
  | cons chunk rest ih =>
    intro buffer hbuf
    obtain ⟨chunks1, rest1, heq1, hflat1, hlen1, hcount1, hmod1⟩ :=
      sliceLoop_spec c hc ((buffer ++ chunk).length + 1) (buffer ++ chunk)
        (by omega)
    have hrest1 : rest1.length < c.toNat := by
      rw [hmod1]
      exact Nat.mod_lt _ (by omega)
    obtain ⟨chunks2, heq2, hflat2, hcount2, hlast2⟩ := ih rest1 hrest1
    refine ⟨chunks1 ++ chunks2, ?_, ?_, ?_, ?_⟩
    · simp only [processStream, heq1, heq2]
    · rw [List.flatten_append, hflat2, ← List.append_assoc, hflat1]
      simp [List.flatten_cons, List.append_assoc]
    · rw [List.length_append, hcount1, hcount2, hmod1]
      have hB := Nat.div_add_mod (buffer ++ chunk).length c.toNat
      have hnum : buffer.length + (List.flatten (chunk :: rest)).length
            + c.toNat - 1 =
          ((buffer ++ chunk).length % c.toNat + rest.flatten.length
            + c.toNat - 1)
            + c.toNat * ((buffer ++ chunk).length / c.toNat) := by
        simp only [List.flatten_cons, List.length_append] at hB ⊢
        omega
      rw [hnum, Nat.add_mul_div_left _ _ (show 0 < c.toNat by omega)]
      exact Nat.add_comm _ _
    · by_cases h2 : chunks2 = []
      · subst h2
        rw [List.append_nil]
        intro ch hch
        exact hlen1 ch (List.dropLast_subset _ hch)
      · rw [List.dropLast_append_of_ne_nil chunks1 h2]
        intro ch hch
        rcases List.mem_append.mp hch with h1 | h2'
        · exact hlen1 ch h1
        · exact hlast2 ch h2'

theorem sliceLoop_none_of_nonpos (c : Int) (hc : c ≤ 0) :
    ∀ (fuel : Nat) (buffer : List Nat), sliceLoop c fuel buffer = none := by
  intro fuel
  induction fuel with
  | zero =>
    intro buffer
    simp only [sliceLoop]
    rw [if_pos (show c ≤ (buffer.length : Int) by omega)]
  | succ fuel ih =>
    intro buffer
    simp only [sliceLoop]
    rw [if_pos (show c ≤ (buffer.length : Int) by omega),
      ih (jsDropChunk c buffer)]

/-! ## C3: chunking round-trip -/

/-- C3: for every finite byte source and every chunk size C ≥ 1, the chunked
stream pipeline succeeds, the concatenation of the emitted chunks is exactly
the source bytes, the number of emitted chunks is ceil(N/C) (so zero chunks
when N = 0), and every emitted chunk except possibly the last has length
exactly C. -/
theorem streamChunker_roundtrip (c : Int) (hc : 1 ≤ c)
    (incoming : List (List Nat)) :
    ∃ chunks, StreamChunker.process c incoming = some chunks
      ∧ chunks.flatten = incoming.flatten
      ∧ chunks.length = (incoming.flatten.length + c.toNat - 1) / c.toNat
      ∧ ∀ ch ∈ chunks.dropLast, ch.length = c.toNat := by
  obtain ⟨chunks, heq, hflat, hcount, hlast⟩ :=
    processStream_spec c hc incoming [] (by simp only [List.length_nil]; omega)
  exact ⟨chunks, heq, by simpa using hflat, by simpa using hcount, hlast⟩

/-- Witness for C3: chunk size 2 over the source chunks [1,2,3] and [4,5]. -/
theorem streamChunker_roundtrip_witness :
    ∃ chunks, StreamChunker.process 2 [[1, 2, 3], [4, 5]] = some chunks
      ∧ chunks.flatten = ([[1, 2, 3], [4, 5]] : List (List Nat)).flatten
      ∧ chunks.length =
          (([[1, 2, 3], [4, 5]] : List (List Nat)).flatten.length
            + (2 : Int).toNat - 1) / (2 : Int).toNat
      ∧ ∀ ch ∈ chunks.dropLast, ch.length = (2 : Int).toNat :=
  streamChunker_roundtrip 2 (by decide) [[1, 2, 3], [4, 5]]

/-! ## C9: termination of the chunking loops -/

/-- C9: `StreamChunker.process` terminates (returns a result) for every
finite source when the chunk size is at least 1; for a chunk size of 0 or
less the condition `buffer.length >= chunkSize` of the inner slicing loop
holds in every state, so the loop never exits regardless of the number of
iterations allowed, and processing a source that delivers at least one chunk
does not terminate. -/
theorem streamChunker_termination :
    (∀ c : Int, 1 ≤ c → ∀ incoming : List (List Nat),
      (StreamChunker.process c incoming).isSome = true)
    ∧ (∀ c : Int, c ≤ 0 → ∀ (fuel : Nat) (buffer : List Nat),
        sliceLoop c fuel buffer = none)
    ∧ (∀ c : Int, c ≤ 0 → ∀ (incoming : List (List Nat)) (buffer : List Nat),
        incoming ≠ [] → processStream c incoming buffer = none) := by
  refine ⟨?_, ?_, ?_⟩
  · intro c hc incoming
    obtain ⟨chunks, heq, -, -, -⟩ := processStream_spec c hc incoming [] (by simp only [List.length_nil]; omega)
    show (processStream c incoming []).isSome = true
    rw [heq]
    rfl
  · intro c hc fuel buffer
    exact sliceLoop_none_of_nonpos c hc fuel buffer
  · intro c hc incoming buffer hne
    match incoming with
    | [] => exact absurd rfl hne
    | chunk :: rest =>
      simp only [processStream, sliceLoop_none_of_nonpos c hc]

/-- Witness for C9: processing one source chunk with chunk size 1
terminates. -/
theorem streamChunker_termination_witness :
    (StreamChunker.process 1 [[5]]).isSome = true :=
  streamChunker_termination.1 1 (by decide) [[5]]

end Vertopal
